import Mathlib

/-
Verification of the scene-graph / resource-cache core of the
Engine_Win32_DirectX11 repository.

Embedding conventions:

* `DirectX::XMMATRIX` values are abstracted to an arbitrary monoid `M`:
  the code under verification uses only matrix multiplication (associative,
  written `*` and left-associated exactly as the C++ expressions are),
  the identity matrix `XMMatrixIdentity()` (the monoid unit `1`), and
  `XMMatrixTranspose` (an uninterpreted function `τ : M → M`).
* The draw traversal is given a trace semantics: `Node.draw` returns the
  list of `Mesh::Draw` invocations it issues, each recorded as the pair of
  the mesh reference (an index into the owning model's mesh collection)
  and the accumulated transform handed to `Mesh::Draw`.
* Fallible steps (the asset importer returning null, the UI dereferencing
  a null selection pointer) are embedded with `Option`: `none` is the
  aborted computation.
-/

namespace Engine

/-- A scene-graph node of the pose-editing variant (src/Mesh.cpp, class
`Node`): integer identifier, display name, non-owning mesh references
(indices into the model's mesh collection), base transform, applied
transform and owned children. -/
inductive Node (M : Type) : Type where
  | mk (id : Int) (name : String) (meshes : List Nat)
      (baseTransform : M) (appliedTransform : M)
      (children : List (Node M)) : Node M
deriving Repr

namespace Node

variable {M : Type}

def id : Node M → Int
  | .mk i _ _ _ _ _ => i

def name : Node M → String
  | .mk _ nm _ _ _ _ => nm

def meshes : Node M → List Nat
  | .mk _ _ ms _ _ _ => ms

def baseTransform : Node M → M
  | .mk _ _ _ b _ _ => b

def appliedTransform : Node M → M
  | .mk _ _ _ _ a _ => a

def children : Node M → List (Node M)
  | .mk _ _ _ _ _ cs => cs

/-- The Node constructor (src/Mesh.cpp:35-40): stores the given base
transform and initialises the applied transform to the identity matrix;
children start empty and are attached later through `AddChild`. -/
def make [Monoid M] (i : Int) (nm : String) (ms : List Nat) (t : M) : Node M :=
  .mk i nm ms t 1 []

/-- The accumulated matrix `Node::Draw` computes for its meshes and
children (src/Mesh.cpp:44-46): `AppliedTransform * BaseTransform *
InAccumulatedTransformMatrix`, left-associated as in the C++ expression. -/
def myTransform [Monoid M] (n : Node M) (p : M) : M :=
  n.appliedTransform * n.baseTransform * p

/-- Node::AddChild (src/Mesh.cpp:69-72): appends to the child list. -/
def addChild : Node M → Node M → Node M
  | .mk i nm ms b a cs, c => .mk i nm ms b a (cs ++ [c])

/-- Node::SetAppliedTransform (src/Mesh.cpp:59-62): overwrites the applied
transform field, leaving every other field unchanged. -/
def setAppliedTransform : Node M → M → Node M
  | .mk i nm ms b _a cs, t => .mk i nm ms b t cs

end Node

mutual

/-- Node::Draw of the pose-editing variant (src/Mesh.cpp:42-57): computes
the accumulated matrix, issues `Mesh::Draw` with it for every associated
mesh, then recurses into every child with the same accumulated matrix.
The result is the trace of `Mesh::Draw` calls, in order. -/
def Node.draw {M : Type} [Monoid M] : Node M → M → List (Nat × M)
  | n@(.mk _ _ ms _ _ cs), parent =>
    let my := n.myTransform parent
    ms.map (fun m => (m, my)) ++ Node.drawList cs my

/-- The child loop of Node::Draw (src/Mesh.cpp:53-56). -/
def Node.drawList {M : Type} [Monoid M] : List (Node M) → M → List (Nat × M)
  | [], _ => []
  | c :: cs, parent => Node.draw c parent ++ Node.drawList cs parent

end

mutual

/-- The in-place pose edit `SelectedNode->SetAppliedTransform(...)`
performed by Model::Draw (src/Mesh.cpp:311-314): the selected node is a
pointer into the tree; functionally, the tree with the applied transform
of the node carrying the selected identifier overwritten. -/
def Node.setAppliedAt {M : Type} (selId : Int) (t : M) : Node M → Node M
  | .mk i nm ms b a cs =>
    if i = selId then .mk i nm ms b t cs
    else .mk i nm ms b a (Node.setAppliedAtList selId t cs)

/-- Per-child recursion of `Node.setAppliedAt`. -/
def Node.setAppliedAtList {M : Type} (selId : Int) (t : M) :
    List (Node M) → List (Node M)
  | [] => []
  | c :: cs => Node.setAppliedAt selId t c :: Node.setAppliedAtList selId t cs

end

mutual

/-- Node::ShowTree (src/Mesh.cpp:74-104). Its very first statement reads
`(*InSelectedNode)->GetID()`, dereferencing the selection pointer with no
null check, before any selection update; a null selection is therefore an
aborted call, embedded as `none`. The immediate-mode UI is external: the
per-node click and expansion outcomes are oracles indexed by node
identifier, and the node flags built from the comparison feed only the UI.
On a click the selection pointer is retargeted to the current node; the
children are visited (with the possibly updated selection) only when the
tree item is expanded. Returns the selection pointer after the call. -/
def Node.showTree {M : Type} (clicked expanded : Int → Bool) :
    Node M → Option Int → Option (Option Int)
  | .mk i _ _ _ _ cs, sel =>
    match sel with
    | none => none
    | some selId =>
      let sel1 := if clicked i then some i else some selId
      if expanded i then Node.showTreeList clicked expanded cs sel1
      else some sel1

/-- The child loop of Node::ShowTree (src/Mesh.cpp:95-103), threading the
selection pointer through the children in order. -/
def Node.showTreeList {M : Type} (clicked expanded : Int → Bool) :
    List (Node M) → Option Int → Option (Option Int)
  | [], sel => some sel
  | c :: cs, sel =>
    match Node.showTree clicked expanded c sel with
    | none => none
    | some sel1 => Node.showTreeList clicked expanded cs sel1

end

mutual

/-- Node identifiers of a tree in depth-first pre-order: the order in
which Model::ParseNode creates the nodes. -/
def Node.collectIds {M : Type} : Node M → List Int
  | .mk i _ _ _ _ cs => i :: Node.collectIdsList cs

/-- Identifier collection over a child list. -/
def Node.collectIdsList {M : Type} : List (Node M) → List Int
  | [] => []
  | c :: cs => Node.collectIds c ++ Node.collectIdsList cs

end

/-- A scene-graph node of the original, pre-pose-edit variant
(src/Model.cpp, class `Node`): mesh references, one transform, children.
There is no identifier, no name and no applied transform. -/
inductive NodeV1 (M : Type) : Type where
  | mk (meshes : List Nat) (transform : M) (children : List (NodeV1 M)) : NodeV1 M
deriving Repr

namespace NodeV1

variable {M : Type}

def meshes : NodeV1 M → List Nat
  | .mk ms _ _ => ms

def transform : NodeV1 M → M
  | .mk _ t _ => t

def children : NodeV1 M → List (NodeV1 M)
  | .mk _ _ cs => cs

/-- The accumulated matrix Node::Draw of the pre-pose-edit variant
computes (src/Model.cpp:50): `TransformMatrix * InAccumulatedTransformMatrix`. -/
def myTransform [Monoid M] (n : NodeV1 M) (p : M) : M :=
  n.transform * p

end NodeV1

mutual

/-- Node::Draw of the pre-pose-edit variant (src/Model.cpp:48-61), with
the same trace semantics as `Node.draw`. -/
def NodeV1.draw {M : Type} [Monoid M] : NodeV1 M → M → List (Nat × M)
  | n@(.mk ms _ cs), parent =>
    let my := n.myTransform parent
    ms.map (fun m => (m, my)) ++ NodeV1.drawList cs my

/-- The child loop of the pre-pose-edit Node::Draw (src/Model.cpp:57-60). -/
def NodeV1.drawList {M : Type} [Monoid M] : List (NodeV1 M) → M → List (Nat × M)
  | [], _ => []
  | c :: cs, parent => NodeV1.draw c parent ++ NodeV1.drawList cs parent

end

/-- A node of the imported scene hierarchy (`aiNode`): name, local
transformation, mesh indices into the scene's mesh array, children. -/
inductive AiNode (M : Type) : Type where
  | mk (name : String) (transformation : M) (meshes : List Nat)
      (children : List (AiNode M)) : AiNode M
deriving Repr

mutual

/-- Number of nodes in an imported hierarchy. -/
def AiNode.size {M : Type} : AiNode M → Nat
  | .mk _ _ _ cs => 1 + AiNode.sizeList cs

/-- Total node count of a list of imported hierarchies. -/
def AiNode.sizeList {M : Type} : List (AiNode M) → Nat
  | [] => 0
  | c :: cs => AiNode.size c + AiNode.sizeList cs

end

namespace Model

mutual

/-- Model::ParseNode (src/Mesh.cpp:286-307). `InNextID` is an `int&`
threaded through the build: the new node takes the current value
(`InNextID++`) and the children are parsed left to right with the
incremented counter. The source node's transformation is transposed
(`XMMatrixTranspose`, the uninterpreted `τ`); the node is constructed via
the Node constructor (applied transform = identity) and the parsed
children are attached through `AddChild` in order. Returns the built node
and the final counter value. -/
def parseNode {M : Type} [Monoid M] (τ : M → M) (nextId : Int) :
    AiNode M → Node M × Int
  | .mk nm t ms cs =>
    let newNode := Node.make nextId nm ms (τ t)
    Model.parseChildren τ (nextId + 1) cs newNode

/-- The child loop of Model::ParseNode (src/Mesh.cpp:301-304). -/
def parseChildren {M : Type} [Monoid M] (τ : M → M) (nextId : Int) :
    List (AiNode M) → Node M → Node M × Int
  | [], acc => (acc, nextId)
  | c :: cs, acc =>
    let r := Model.parseNode τ nextId c
    Model.parseChildren τ r.2 cs (acc.addChild r.1)

end

/-- The root-parsing step of the Model constructor (src/Mesh.cpp:181-182):
`int NextID = 0; Root = ParseNode(NextID, *Scene->mRootNode)`. -/
def buildRoot {M : Type} [Monoid M] (τ : M → M) (root : AiNode M) : Node M :=
  (Model.parseNode τ 0 root).1

end Model

/-- The material description of one imported mesh, as Model::ParseMesh
reads it (src/Mesh.cpp:224-242): the diffuse texture path, the optional
specular texture path (GetTexture(aiTextureType_SPECULAR) succeeding or
not), and the optional material shininess (AI_MATKEY_SHININESS; when the
query fails the local default 35.0 stays). -/
structure AiMaterial where
  diffuseTexture : String
  specularTexture : Option String
  shininess : Option ℚ
deriving Repr, DecidableEq

/-- The hard-coded texture/tag base directory of Model::ParseMesh
(src/Mesh.cpp:226): a string constant, independent of the file name the
Model was built from. -/
def baseDirectory : String := "Models\\nanosuit_textured\\"

namespace Model

/-- The mesh cache tag computed in Model::ParseMesh (src/Mesh.cpp:246):
`BaseDirectory + "$" + InMesh.mName`. -/
def meshTag (meshName : String) : String :=
  baseDirectory ++ "$" ++ meshName

/-- The mesh cache tag as a function of the build's source file name and
the mesh name. The `InFileName` handed to the Model constructor
(src/Mesh.cpp:171) is in scope of the build that reaches ParseMesh, but
ParseMesh never receives it: the tag is `BaseDirectory + "$" + name` with
the fixed `baseDirectory` constant, so the first argument is dead. It is
taken explicitly here so that theorems can quantify over the source path
the specification says the tag is derived from. -/
def meshTagOf (_sourceFileName : String) (meshName : String) : String :=
  Model.meshTag meshName

end Model

/-- One resource of a Mesh's binding set, identified by the discriminating
arguments of the `Resolve` call (or direct construction) that produced it
in Model::ParseMesh and the Mesh constructor (src/Mesh.cpp:12-22 and
222-283). Payloads that never discriminate behaviour relevant to the
claims (GPU blobs, vertex data, camera position) are elided. -/
inductive Bindable where
  | topology
  | texture (path : String) (slot : Nat)
  | sampler
  | vertexBuffer (tag : String)
  | indexBuffer (tag : String)
  | vertexShader (path : String)
  | inputLayout
  | pixelShader (path : String)
  | materialConstants (specularIntensity specularPower : ℚ) (slot : Nat)
  | cameraConstants (slot : Nat)
  | transformConstantBuffer
deriving Repr, DecidableEq

namespace Model

/-- Model::ParseMesh (src/Mesh.cpp:188-284), as the ordered list of
resources it resolves/constructs for one imported mesh. The diffuse
texture is always resolved at slot 0; when a specular texture is present
it is resolved at slot 1, the specular-map pixel shader is used and no
material constant buffer is created; otherwise the plain Phong pixel
shader is used together with a material constant buffer at slot 1 carrying
specular intensity 0.8 and the shininess (AI_MATKEY_SHININESS, defaulting
to 35.0). The camera constant buffer goes to slot 1 with a specular map,
slot 2 without. Vertex and index buffers are resolved under `meshTag`. -/
def parseMesh (mat : AiMaterial) (meshName : String) : List Bindable :=
  let bs0 := [Bindable.texture (baseDirectory ++ mat.diffuseTexture) 0]
  let hasSpecularMap := mat.specularTexture.isSome
  let bs1 := bs0 ++
    (match mat.specularTexture with
     | some p => [Bindable.texture (baseDirectory ++ p) 1]
     | none => [])
  let shininess : ℚ :=
    match mat.specularTexture with
    | some _ => 35
    | none => mat.shininess.getD 35
  let tag := Model.meshTag meshName
  let bs2 := bs1 ++
    [Bindable.sampler, Bindable.vertexBuffer tag, Bindable.indexBuffer tag,
     Bindable.vertexShader "PhongVS.cso", Bindable.inputLayout]
  let bs3 := bs2 ++
    (if hasSpecularMap then [Bindable.pixelShader "SpecularMapPhongPS.cso"]
     else [Bindable.pixelShader "PhongPS.cso",
           Bindable.materialConstants (0.8 : ℚ) shininess 1])
  bs3 ++ [Bindable.cameraConstants (if hasSpecularMap then 1 else 2)]

/-- The full binding set of the Mesh built from one mesh description: the
Mesh constructor (src/Mesh.cpp:12-22) prepends the triangle-list topology
and appends the per-instance transform constant buffer around the
ParseMesh resources. -/
def meshBindables (mat : AiMaterial) (meshName : String) : List Bindable :=
  Bindable.topology :: (Model.parseMesh mat meshName ++ [Bindable.transformConstantBuffer])

end Model

/-- The flat output of the asset importer consumed by the Model
constructor (src/Mesh.cpp:171-184): one material/name description per
mesh, and the root of the node hierarchy. -/
structure AiScene (M : Type) where
  meshes : List (AiMaterial × String)
  rootNode : AiNode M

/-- One built Model: the owned mesh collection (each mesh by its binding
set) and the owned node tree root. -/
structure ModelRep (M : Type) where
  meshes : List (List Bindable)
  root : Node M

namespace Model

/-- The Model constructor (src/Mesh.cpp:171-184). `Importer.ReadFile`
returns null for a malformed or unreadable scene and the constructor
dereferences the result unconditionally (`Scene->mNumMeshes`) before any
other work, so a failed import aborts the build before any mesh or node
exists: embedded as `none`, no ModelRep value. On a successful import
every scene mesh is parsed in order, then the node tree is parsed with the
identifier counter starting at 0. -/
def build {M : Type} [Monoid M] (τ : M → M) :
    Option (AiScene M) → Option (ModelRep M)
  | none => none
  | some sc =>
    some ⟨sc.meshes.map (fun md => Model.meshBindables md.1 md.2),
          Model.buildRoot τ sc.rootNode⟩

/-- Model::Draw (src/Mesh.cpp:309-317): when the window's selected node is
non-null its applied transform is overwritten with the pose matrix from
the window, otherwise the pose edit is skipped; then the root is drawn
with the identity matrix. -/
def draw {M : Type} [Monoid M] (root : Node M) (selected : Option Int)
    (pose : M) : List (Nat × M) :=
  match selected with
  | some selId => (root.setAppliedAt selId pose).draw 1
  | none => root.draw 1

end Model

/-- Modelled from the spec: the process-wide resource cache. The cache
implementation (the `Resolve` registry behind `Texture::Resolve`,
`VertexBuffer::Resolve`, ... called from src/Mesh.cpp) is not among the
provided sources, only its call sites are; this follows §4.1 of the
specification. An entry maps an identity string to the shared instance
registered under it; an instance is the pair of its allocation number
(standing for the object's address, so that reference equality is equality
of allocation numbers) and the construction argument payload captured when
it was built. -/
structure Codex (A : Type) where
  entries : List (String × (Nat × A))
  nextInstance : Nat
deriving Repr

namespace Codex

/-- Modelled from the spec: `Resolve(identity, constructor)`. If an entry
for the identity already exists it is returned and the construction
arguments are ignored; otherwise the constructor runs (capturing the
non-identity arguments `a`), the result is registered under the identity
and returned. The Bool records whether a construction was performed. -/
def resolve {A : Type} (s : Codex A) (identity : String) (a : A) :
    Codex A × (Nat × A) × Bool :=
  match s.entries.find? (fun e => e.1 == identity) with
  | some e => (s, e.2, false)
  | none =>
    let inst := (s.nextInstance, a)
    (⟨s.entries ++ [(identity, inst)], s.nextInstance + 1⟩, inst, true)

end Codex

/-- The identifiers `i, i+1, ..., i+k-1` in order. -/
def idRange (i : Int) (k : Nat) : List Int :=
  (List.range k).map (fun (j : Nat) => i + (j : Int))

/-- C1: For every Node with base transform B, applied transform A, and
parent-accumulated transform P, one call to Node::Draw(device, P) passes
exactly the matrix (A · B) · P (in that multiplication order) to
Mesh::Draw for every Mesh associated with that Node: the first
`n.meshes.length` entries of the draw trace are exactly the node's meshes,
each paired with `(A * B) * P`. -/
theorem node_draw_feeds_applied_base_parent {M : Type} [Monoid M]
    (n : Node M) (p : M) :
    (n.draw p).take n.meshes.length =
      n.meshes.map (fun m => (m, n.appliedTransform * n.baseTransform * p)) := by
  cases n with
  | mk i nm ms b a cs =>
    rw [Node.draw]
    simp only [Node.meshes, Node.myTransform, Node.appliedTransform, Node.baseTransform]
    rw [show ms.length = (ms.map
      (fun m => (m, a * b * p))).length by simp, List.take_left]

/-- C3: For every Node of the pose-editing variant whose applied transform
is the identity (its value right after construction), the accumulated
matrix Node::Draw computes for its Meshes and children equals the one the
original pre-pose-edit variant's Node::Draw computes, given the same base
transform and the same parent-accumulated transform. -/
theorem node_identity_applied_matches_original {M : Type} [Monoid M]
    (n : Node M) (v1 : NodeV1 M) (hA : n.appliedTransform = 1)
    (hB : v1.transform = n.baseTransform) (p : M) :
    n.myTransform p = v1.myTransform p := by
  simp [Node.myTransform, NodeV1.myTransform, hA, hB, one_mul]

/-- Witness for C3 at a concrete node over the monoid ℕ. -/
theorem node_identity_applied_matches_original_witness :
    Node.myTransform (M := ℕ) (.mk 0 "root" [0] 5 1 []) 7 =
      NodeV1.myTransform (.mk [0] 5 []) 7 :=
  node_identity_applied_matches_original (.mk 0 "root" [0] 5 1 []) (.mk [0] 5 []) rfl rfl 7

/-- C5: For a Node whose children were added (via AddChild) in order
c1, c2, c3, one Node::Draw call issues the node's own mesh draws first and
then the child subtrees in exactly that insertion order, and every child
receives the same accumulated matrix value (A · B) · P. -/
theorem node_draw_child_order {M : Type} [Monoid M] (i : Int) (nm : String)
    (ms : List Nat) (b a : M) (c1 c2 c3 : Node M) (p : M) :
    ((((Node.mk i nm ms b a []).addChild c1).addChild c2).addChild c3).draw p =
      ms.map (fun m => (m, a * b * p)) ++
        (c1.draw (a * b * p) ++ (c2.draw (a * b * p) ++ c3.draw (a * b * p))) := by
  rw [Node.addChild, Node.addChild, Node.addChild, Node.draw]
  simp [Node.drawList, Node.myTransform, Node.meshes,
    Node.appliedTransform, Node.baseTransform]

/-- C8: SetAppliedTransform(t) replaces the applied transform with t
outright (independently of the previous applied transform, so not
composed with it), changes no other field of the Node, and the next
Node::Draw accumulates with the new value: the accumulated matrix it
computes is (t · B) · P. -/
theorem node_setAppliedTransform_replaces {M : Type} [Monoid M]
    (n : Node M) (t : M) :
    (n.setAppliedTransform t).appliedTransform = t ∧
    (n.setAppliedTransform t).id = n.id ∧
    (n.setAppliedTransform t).name = n.name ∧
    (n.setAppliedTransform t).meshes = n.meshes ∧
    (n.setAppliedTransform t).baseTransform = n.baseTransform ∧
    (n.setAppliedTransform t).children = n.children ∧
    ∀ p : M, (n.setAppliedTransform t).myTransform p = t * n.baseTransform * p := by
  cases n with
  | mk i nm ms b a cs =>
    refine ⟨rfl, rfl, rfl, rfl, rfl, rfl, fun p => ?_⟩
    simp [Node.setAppliedTransform, Node.myTransform, Node.appliedTransform,
      Node.baseTransform]

/-- C9: A malformed or unreadable source scene (the importer returning
null) makes the Model build abort with no ModelRep value at all, while a
readable scene always yields a built Model: no partially built Model ever
escapes the constructor. -/
theorem model_build_null_scene_fatal {M : Type} [Monoid M] (τ : M → M) :
    Model.build τ (none : Option (AiScene M)) = none ∧
    ∀ sc : AiScene M, ∃ m : ModelRep M, Model.build τ (some sc) = some m :=
  ⟨rfl, fun _ => ⟨_, rfl⟩⟩

/-- C2: Two resolve requests with equal computed identity return the same
shared instance (the same allocation, i.e. reference equality), whatever
the non-identity construction arguments of either call are; the second
call performs no construction and leaves the cache unchanged. -/
theorem codex_resolve_shares_instance {A : Type} (s : Codex A)
    (idy : String) (a1 a2 : A) :
    ((s.resolve idy a1).1.resolve idy a2).2.1 = (s.resolve idy a1).2.1 ∧
    ((s.resolve idy a1).1.resolve idy a2).2.2 = false ∧
    ((s.resolve idy a1).1.resolve idy a2).1 = (s.resolve idy a1).1 := by
  cases h : s.entries.find? (fun e => e.1 == idy) with
  | some e => simp [Codex.resolve, h]
  | none => simp [Codex.resolve, h, List.find?_append]

/-- C4 counterexample: the claim asserts that two meshes from different
source paths never share a cache tag; in the code the tag is built from
the hard-coded base directory, so two builds from different source files
give a mesh named "MeshM" the very same tag. -/
theorem meshTag_shared_across_source_paths :
    Model.meshTagOf "Models\\alpha\\a.obj" "MeshM" =
      Model.meshTagOf "Models\\beta\\b.obj" "MeshM" ∧
    "Models\\alpha\\a.obj" ≠ "Models\\beta\\b.obj" :=
  ⟨rfl, by decide⟩

/-- C4 (amended): the cache tag under which a mesh's vertex and index
buffers are resolved is the fixed base directory constant plus "$" plus
the mesh name; the model's source path does not enter it. Hence two mesh
descriptions resolve to the same tag exactly when their mesh names are
equal — in particular two meshes with identical source path and mesh name
share a tag, but so do two meshes with equal names from different source
paths. -/
theorem meshTag_depends_only_on_mesh_name (p1 p2 n1 n2 : String) :
    Model.meshTagOf p1 n1 = Model.meshTagOf p2 n2 ↔ n1 = n2 := by
  unfold Model.meshTagOf Model.meshTag
  constructor
  · intro h
    apply String.ext
    have h2 := congrArg String.data h
    simp only [String.data_append, List.append_assoc] at h2
    exact List.append_cancel_left (List.append_cancel_left h2)
  · intro h
    rw [h]

/-- Witness for C4's amended statement at concrete inputs. -/
theorem meshTag_depends_only_on_mesh_name_witness :
    Model.meshTagOf "Models\\alpha\\a.obj" "Body" =
      Model.meshTagOf "Models\\beta\\b.obj" "Body" :=
  (meshTag_depends_only_on_mesh_name "Models\\alpha\\a.obj"
    "Models\\beta\\b.obj" "Body" "Body").mpr rfl

/-- C6: A mesh description whose material lacks a specular texture still
builds: its Mesh binds no texture at slot 1 and instead a material
constant buffer at slot 1 carrying the shininess constant (the queried
AI_MATKEY_SHININESS value, or the default 35 when the query fails),
whereas a mesh description with a specular texture binds it as a second
texture at slot 1 and gets no material constant buffer at all. -/
theorem parseMesh_specular_fallback (mat : AiMaterial) (meshName : String) :
    (mat.specularTexture = none →
      (∀ p : String, Bindable.texture p 1 ∉ Model.meshBindables mat meshName) ∧
      Bindable.materialConstants (0.8 : ℚ) (mat.shininess.getD 35) 1 ∈
        Model.meshBindables mat meshName) ∧
    (∀ sp : String, mat.specularTexture = some sp →
      Bindable.texture (baseDirectory ++ sp) 1 ∈ Model.meshBindables mat meshName ∧
      ∀ (si pw : ℚ) (sl : Nat),
        Bindable.materialConstants si pw sl ∉ Model.meshBindables mat meshName) := by
  constructor
  · intro h
    simp [Model.meshBindables, Model.parseMesh, h]
  · intro sp h
    simp [Model.meshBindables, Model.parseMesh, h]

/-- Witness for C6: a concrete material with no specular texture yields
the default-shininess material constant buffer at slot 1, and a concrete
material with a specular texture binds it at slot 1. -/
theorem parseMesh_specular_fallback_witness :
    (Bindable.materialConstants (0.8 : ℚ) 35 1 ∈
      Model.meshBindables ⟨"body_dif.png", none, none⟩ "Body") ∧
    (Bindable.texture (baseDirectory ++ "arm_spec.png") 1 ∈
      Model.meshBindables ⟨"arm_dif.png", some "arm_spec.png", none⟩ "Arm") :=
  ⟨((parseMesh_specular_fallback ⟨"body_dif.png", none, none⟩ "Body").1 rfl).2,
   ((parseMesh_specular_fallback ⟨"arm_dif.png", some "arm_spec.png", none⟩ "Arm").2
      "arm_spec.png" rfl).1⟩

theorem idRange_zero (i : Int) : idRange i 0 = [] := rfl

theorem idRange_add (i : Int) (m n : Nat) :
    idRange i (m + n) = idRange i m ++ idRange (i + m) n := by
  unfold idRange
  rw [List.range_add, List.map_append, List.map_map]
  congr 1
  apply List.map_congr_left
  intro j _
  simp only [Function.comp_apply]
  push_cast
  ring

theorem idRange_one_add (i : Int) (n : Nat) :
    idRange i (1 + n) = i :: idRange (i + 1) n := by
  rw [idRange_add]
  simp [idRange, List.range_succ]

theorem Node.collectIdsList_append {M : Type} (l1 l2 : List (Node M)) :
    Node.collectIdsList (l1 ++ l2) =
      Node.collectIdsList l1 ++ Node.collectIdsList l2 := by
  induction l1 with
  | nil => simp [Node.collectIdsList]
  | cons c cs ih => simp [Node.collectIdsList, ih]

theorem Node.addChild_collectIds {M : Type} (n c : Node M) :
    (n.addChild c).collectIds = n.collectIds ++ c.collectIds := by
  cases n with
  | mk i nm ms b a cs =>
    rw [Node.addChild, Node.collectIds, Node.collectIds,
      Node.collectIdsList_append]
    simp [Node.collectIdsList]

mutual

/-- Identifier bookkeeping of the ParseNode child loop: starting the
counter at i, parsing a child list onto an accumulator node appends
exactly the identifiers i, i+1, ... (one per created node, in creation
order) to the accumulator's pre-order identifier list, and leaves the
counter advanced by the number of created nodes. -/
theorem Model.parseChildren_spec {M : Type} [Monoid M] (τ : M → M) :
    ∀ (cs : List (AiNode M)) (i : Int) (acc : Node M),
      (Model.parseChildren τ i cs acc).2 = i + AiNode.sizeList cs ∧
      (Model.parseChildren τ i cs acc).1.collectIds =
        acc.collectIds ++ idRange i (AiNode.sizeList cs)
  | [], i, acc => by
    rw [Model.parseChildren, AiNode.sizeList]
    simp [idRange_zero]
  | c :: cs, i, acc => by
    rw [Model.parseChildren, AiNode.sizeList]
    have hc := Model.parseNode_spec τ c i
    have hcs := Model.parseChildren_spec τ cs (Model.parseNode τ i c).2
      (acc.addChild (Model.parseNode τ i c).1)
    refine ⟨?_, ?_⟩
    · rw [hcs.1, hc.1]
      push_cast
      ring
    · rw [hcs.2, Node.addChild_collectIds, hc.2, hc.1, idRange_add,
        List.append_assoc]

/-- Identifier bookkeeping of Model::ParseNode: parsing one source node
with the counter at i creates the identifiers i, i+1, ..., i+size-1 in
depth-first pre-order and leaves the counter at i+size. -/
theorem Model.parseNode_spec {M : Type} [Monoid M] (τ : M → M) :
    ∀ (an : AiNode M) (i : Int),
      (Model.parseNode τ i an).2 = i + an.size ∧
      (Model.parseNode τ i an).1.collectIds = idRange i an.size
  | .mk nm t ms cs, i => by
    rw [Model.parseNode, AiNode.size]
    have h := Model.parseChildren_spec τ cs (i + 1) (Node.make i nm ms (τ t))
    refine ⟨?_, ?_⟩
    · rw [h.1]
      push_cast
      ring
    · rw [h.2, idRange_one_add]
      simp [Node.make, Node.collectIds, Node.collectIdsList]

end

/-- C7: The node identifiers a Model build assigns (starting the counter
at 0 like the Model constructor does) are, read in depth-first pre-order
— the order in which the nodes are created — exactly 0, 1, 2, ...; hence
they are unique within the tree and strictly increasing in creation
order. -/
theorem model_node_ids_preorder {M : Type} [Monoid M] (τ : M → M)
    (root : AiNode M) :
    (Model.buildRoot τ root).collectIds =
      (List.range root.size).map (fun (k : Nat) => (k : Int)) ∧
    (Model.buildRoot τ root).collectIds.Nodup ∧
    List.Pairwise (· < ·) (Model.buildRoot τ root).collectIds := by
  have h := (Model.parseNode_spec τ root 0).2
  have heq : (Model.buildRoot τ root).collectIds =
      (List.range root.size).map (fun (k : Nat) => (k : Int)) := by
    rw [Model.buildRoot, h]
    unfold idRange
    exact List.map_congr_left (fun j _ => by ring)
  refine ⟨heq, ?_, ?_⟩
  · rw [heq]
    exact (List.nodup_range _).map (fun a b hab => by exact_mod_cast hab)
  · rw [heq]
    exact (List.pairwise_lt_range _).map _ (fun a b hab => by exact_mod_cast hab)

mutual

/-- Node::ShowTree never aborts when given a non-null selection: the
selection it hands on (and returns) stays non-null through the whole
recursion. -/
theorem Node.showTree_some {M : Type} (c e : Int → Bool) :
    ∀ (n : Node M) (s : Int), ∃ r : Int,
      Node.showTree c e n (some s) = some (some r)
  | .mk i _nm _ms _b _a cs, s => by
    rw [Node.showTree]
    by_cases hc : c i
    · by_cases he : e i
      · simpa [hc, he] using Node.showTreeList_some c e cs i
      · exact ⟨i, by simp [hc, he]⟩
    · by_cases he : e i
      · simpa [hc, he] using Node.showTreeList_some c e cs s
      · exact ⟨s, by simp [hc, he]⟩

/-- The ShowTree child loop preserves non-null selections. -/
theorem Node.showTreeList_some {M : Type} (c e : Int → Bool) :
    ∀ (l : List (Node M)) (s : Int), ∃ r : Int,
      Node.showTreeList c e l (some s) = some (some r)
  | [], s => ⟨s, by rw [Node.showTreeList]⟩
  | x :: xs, s => by
    rcases Node.showTree_some c e x s with ⟨r1, h1⟩
    rcases Node.showTreeList_some c e xs r1 with ⟨r2, h2⟩
    exact ⟨r2, by simp [Node.showTreeList, h1, h2]⟩

end

/-- C10: Node::ShowTree dereferences the selection reference before any
selection update, so a null selection aborts it (precondition: the
selection must be non-null), and with a non-null selection it always
completes, returning a non-null selection; by contrast Model::Draw guards
the null-selection case itself: with no selected node it skips the pose
edit and draws the unmodified tree, so only the inspector path carries
the precondition. -/
theorem showTree_null_selection {M : Type} [Monoid M] (c e : Int → Bool)
    (n : Node M) :
    Node.showTree c e n none = none ∧
    (∀ s : Int, ∃ r : Int, Node.showTree c e n (some s) = some (some r)) ∧
    (∀ pose : M, Model.draw n none pose = n.draw 1) := by
  refine ⟨?_, fun s => Node.showTree_some c e n s, fun pose => rfl⟩
  cases n with
  | mk i nm ms b a cs => rw [Node.showTree]

end Engine
